import Mathlib

/-!
Verification of the BI-Copilot plan-to-SQL compiler and execution safety gate.

Python strings are embedded as `List Char` (abbreviated `Str`). The embedding
covers `app/core/config.py` (Settings), `app/core/database.py`
(validate_sql_safety, inject_limit_clause, execute_query_safe),
`app/utils/sql_templates.py` (build_select_query, build_simple_select),
`app/agents/sql_generator.py` (SQLGenerator.generate_sql / execute_sql),
`app/core/cache.py` (get_cached, set_cached, generate_cache_key) and
`app/utils/chart_mapper.py` (analyze_data_shape, select_chart_type).

Modelling conventions:
- ASCII text: Python's `str.upper` / `str.lower` / `\b` regex boundaries /
  `str.strip` are per-character operations here (`Char.toUpper`,
  `Char.isWhitespace`, ...), which agrees with Python on ASCII SQL text.
- Python dict accesses `d["k"]` that can raise KeyError are modelled with
  `Option` fields and `Except`; `d.get("k", default)` as `Option.getD`.
- `None`-able / falsy Python values are modelled with `Option` plus explicit
  truthiness helpers mirroring the `if x:` checks of the source.
-/

abbrev Str := List Char

/-- Shorthand for embedding a Lean string literal as a `Str`. -/
def lit (s : String) : Str := s.toList

/-- A word character in the sense of the regex `\b` boundary (`\w`):
letters, digits or underscore (ASCII fragment of Python's semantics). -/
def isWordChar (c : Char) : Bool := c.isAlpha || c.isDigit || c == '_'

/-- Python `s.upper()` (per-character, exact on ASCII). -/
def pyUpper (s : Str) : Str := s.map Char.toUpper

/-- Python `s.lower()` (per-character, exact on ASCII). -/
def pyLower (s : Str) : Str := s.map Char.toLower

/-- `p` is a prefix of `s` (Boolean). -/
def strStartsWith : Str → Str → Bool
  | [], _ => true
  | _ :: _, [] => false
  | a :: ps, b :: ss => a == b && strStartsWith ps ss

/-- Python's substring containment `p in s`. -/
def containsSub (p : Str) : Str → Bool
  | [] => p.isEmpty
  | c :: rest => strStartsWith p (c :: rest) || containsSub p rest

/-- Python `s.rstrip(chars)`: remove all trailing characters satisfying `q`. -/
def rstripP (q : Char → Bool) (s : Str) : Str := (s.reverse.dropWhile q).reverse

/-- Python `s.rstrip()`: remove trailing whitespace. -/
def rstripWS (s : Str) : Str := rstripP Char.isWhitespace s

/-- Python `s.strip()` = remove leading then trailing whitespace. -/
def stripWS (s : Str) : Str := rstripWS (s.dropWhile Char.isWhitespace)

/-- Python `s.rstrip(";")`: remove all trailing semicolons. -/
def rstripSemi (s : Str) : Str := rstripP (· == ';') s

/-- Python `s.split(sep)` for a single-character separator. -/
def splitOnChar (sep : Char) : Str → List Str
  | [] => [[]]
  | c :: rest =>
    if c == sep then [] :: splitOnChar sep rest
    else
      match splitOnChar sep rest with
      | [] => [[c]]
      | x :: xs => (c :: x) :: xs

/-- True when the list is empty or starts with a non-word character. -/
def headNotWord : Str → Bool
  | [] => true
  | c :: _ => !isWordChar c

/-- The keyword `kw` matches at the head of `s` with word boundaries on both
sides; `prevWord` records whether the character just before `s` (in the full
text) is a word character. -/
def tokenAt (kw s : Str) (prevWord : Bool) : Bool :=
  !prevWord && strStartsWith kw s && headNotWord (s.drop kw.length)

def hasTokenAux (kw : Str) : Str → Bool → Bool
  | [], _ => false
  | c :: rest, prevWord => tokenAt kw (c :: rest) prevWord || hasTokenAux kw rest (isWordChar c)

/-- `re.search(r'\b' + kw + r'\b', s)` succeeds, for a keyword made of word
characters: `kw` occurs in `s` delimited by word boundaries. -/
def hasWordBoundaryToken (kw s : Str) : Bool := hasTokenAux kw s false

/-! ## app/core/config.py -/

/-- `Settings` from `app/core/config.py`, restricted to the fields the core
uses; the values are the declared defaults (API keys, model names and feature
flags are irrelevant to the verified components and omitted). -/
structure Settings where
  query_timeout_seconds : Nat := 30
  max_rows : Nat := 10000
  cache_ttl_seconds : Nat := 3600

/-- The module-level `settings = get_settings()` instance. -/
def settings : Settings := {}

/-- `Settings.SQL_FORBIDDEN_KEYWORDS` from `app/core/config.py`. -/
def SQL_FORBIDDEN_KEYWORDS : List Str :=
  [lit "INSERT", lit "UPDATE", lit "DELETE", lit "DROP", lit "CREATE", lit "ALTER",
   lit "TRUNCATE", lit "REPLACE", lit "MERGE", lit "GRANT", lit "REVOKE",
   lit "EXEC", lit "EXECUTE", lit "CALL"]

/-! ## app/core/database.py -/

/-- The three rejection messages of `validate_sql_safety`, as an enumeration
(the Python code returns the corresponding f-strings). -/
inductive SafetyReason where
  | forbiddenKeyword (kw : Str)
  | commentNotAllowed
  | multipleStatements
deriving DecidableEq

/-- `validate_sql_safety` from `app/core/database.py` (lines 75-104). -/
def validate_sql_safety (sql : Str) : Bool × Option SafetyReason :=
  let sql_upper := pyUpper sql
  match SQL_FORBIDDEN_KEYWORDS.find? (fun kw => hasWordBoundaryToken kw sql_upper) with
  | some kw => (false, some (.forbiddenKeyword kw))
  | none =>
    if containsSub (lit "--") sql || containsSub (lit "/*") sql then
      (false, some .commentNotAllowed)
    else if (rstripSemi (rstripWS sql)).contains ';' then
      (false, some .multipleStatements)
    else
      (true, none)

/-- `inject_limit_clause` from `app/core/database.py` (lines 107-132);
`limit = none` models the Python default `limit=None → settings.max_rows`. -/
def inject_limit_clause (sql : Str) (limit : Option Nat) : Str :=
  let l := limit.getD settings.max_rows
  let sql1 := rstripSemi (stripWS sql)
  let sql_upper := pyUpper sql1
  if containsSub (lit "LIMIT") sql_upper then sql1
  else sql1 ++ lit " LIMIT " ++ (Nat.repr l).toList

/-! ## app/utils/sql_templates.py data model -/

/-- A SQL-renderable filter value (`isinstance(val, str)` decides quoting). -/
inductive SqlVal where
  | str (v : Str)
  | int (n : Int)
deriving DecidableEq

/-- The rendering of a filter value inside `build_select_query` /
`build_simple_select`: strings are single-quoted verbatim, other scalars are
formatted with `str()`. -/
def renderVal : SqlVal → Str
  | .str v => '\'' :: (v ++ ['\''])
  | .int n => (Int.repr n).toList

/-- One metric specification `{"column": ..., "aggregation": ..., "table": ...}`;
`none` models an absent key (Python `dict.get`). -/
structure Metric where
  column : Str
  aggregation : Option Str := none
  table : Option Str := none
deriving DecidableEq

/-- One join specification `{"table", "on_column", "from_column", "join_from"}`. -/
structure Join where
  table : Str
  on_column : Str
  from_column : Str
  join_from : Option Str := none
deriving DecidableEq

/-- One filter specification `{"column", "operator", "value"}`. -/
structure SqlFilter where
  column : Str
  operator : Str
  value : SqlVal
deriving DecidableEq

/-- Python `col.split('.')[-1]` (never fails: `split` is never empty). -/
def lastSegment (col : Str) : Str := ((splitOnChar '.' col).reverse).headD []

/-- The body of the metric loop of `build_select_query` (lines 45-56): the
projection item appended for one metric. -/
def metricSelectItem (table : Str) (use_table_pfx : Bool) (m : Metric) : Str :=
  let col := m.column
  let agg := m.aggregation.getD (lit "SUM")
  let metric_table := m.table.getD table
  let col_ref :=
    if use_table_pfx && !col.contains '.' then metric_table ++ '.' :: col else col
  agg ++ '(' :: col_ref ++ lit ") AS " ++ lastSegment col ++ '_' :: pyLower agg

/-- `build_select_query` from `app/utils/sql_templates.py` (lines 9-127).
The `aggregations` argument is accepted and ignored, exactly as in the
source (the parameter is never read in the function body). -/
def build_select_query (table : Str) (metrics : List Metric) (dimensions : List Str)
    (filters : List SqlFilter) (aggregations : List (Str × Str)) (limit : Nat)
    (joins : List Join) : Str :=
  let _ := aggregations
  let use_pfx := !joins.isEmpty
  let select_parts := dimensions ++ metrics.map (metricSelectItem table use_pfx)
  let select_clause :=
    if select_parts.isEmpty then lit "*" else List.intercalate (lit ", ") select_parts
  let from_clause := lit "FROM " ++ table
  let join_clauses := joins.map (fun j =>
    lit "JOIN " ++ j.table ++ lit " ON " ++ (j.join_from.getD table) ++ '.' :: j.from_column
      ++ lit " = " ++ j.table ++ '.' :: j.on_column)
  let where_parts := filters.map (fun f =>
    f.column ++ ' ' :: f.operator ++ ' ' :: renderVal f.value)
  let where_clause :=
    if where_parts.isEmpty then [] else lit "WHERE " ++ List.intercalate (lit " AND ") where_parts
  let group_by_clause :=
    if !dimensions.isEmpty && !metrics.isEmpty then
      lit "GROUP BY " ++ List.intercalate (lit ", ") dimensions
    else []
  let order_by_clause :=
    match metrics with
    | [] => []
    | m :: _ =>
      lit "ORDER BY " ++ lastSegment m.column ++ '_' :: pyLower (m.aggregation.getD (lit "SUM"))
        ++ lit " DESC"
  let limit_clause := lit "LIMIT " ++ (Nat.repr limit).toList
  let parts := [lit "SELECT " ++ select_clause, from_clause] ++ join_clauses
      ++ [where_clause, group_by_clause, order_by_clause, limit_clause]
  List.intercalate ['\n'] (parts.filter (fun p => !p.isEmpty))

/-- `build_simple_select` from `app/utils/sql_templates.py` (lines 130-182);
`columns = none` / `filters = none` model the Python `None` defaults. -/
def build_simple_select (table : Str) (columns : Option (List Str))
    (filters : Option (List SqlFilter)) (limit : Nat) : Str :=
  let select_clause :=
    match columns with
    | some (c :: cs) => List.intercalate (lit ", ") (c :: cs)
    | _ => lit "*"
  let from_clause := lit "FROM " ++ table
  let where_parts :=
    match filters with
    | none => []
    | some fs => fs.map (fun f => f.column ++ ' ' :: f.operator ++ ' ' :: renderVal f.value)
  let where_clause :=
    if where_parts.isEmpty then [] else lit "WHERE " ++ List.intercalate (lit " AND ") where_parts
  let limit_clause := lit "LIMIT " ++ (Nat.repr limit).toList
  let parts := [lit "SELECT " ++ select_clause, from_clause, where_clause, limit_clause]
  List.intercalate ['\n'] (parts.filter (fun p => !p.isEmpty))

/-! ## app/agents/sql_generator.py -/

/-- The analysis plan dict as consumed by `SQLGenerator.generate_sql`:
`plan["table"]` may be missing (KeyError), the other fields are read with
`plan.get(..., [])`. -/
structure AnalysisPlan where
  table : Option Str := none
  metrics : List Metric := []
  dimensions : List Str := []
  filters : List SqlFilter := []
  joins : List Join := []

/-- Python truthiness of `m.get("aggregation")`: an absent key or an empty
string is falsy. -/
def aggTruthy : Option Str → Bool
  | none => false
  | some s => !s.isEmpty

/-- `SQLGenerator.generate_sql` from `app/agents/sql_generator.py`
(lines 26-70). The only failure is the `plan["table"]` KeyError; the
`aggregations` dict comprehension is rebuilt as an association list (it is
passed to `build_select_query`, which ignores it). -/
def generate_sql (plan : AnalysisPlan) : Except String Str :=
  match plan.table with
  | none => .error "KeyError: table"
  | some table =>
    let metrics := plan.metrics
    let aggregations := metrics.map (fun m => (m.column, m.aggregation.getD (lit "SUM")))
    if !metrics.isEmpty && metrics.any (fun m => aggTruthy m.aggregation) then
      .ok (build_select_query table metrics plan.dimensions plan.filters aggregations
            settings.max_rows plan.joins)
    else
      .ok (build_simple_select table
            (if !plan.dimensions.isEmpty then some plan.dimensions else none)
            (some plan.filters) settings.max_rows)

/-! ## app/utils/chart_mapper.py -/

/-- A first-row cell value as inspected by `analyze_data_shape`:
`int` stands for the numeric scalars (`isinstance(value, (int, float))`),
`str` for strings, `null` for `None`. -/
inductive Scalar where
  | int (n : Int)
  | str (s : Str)
  | null
deriving DecidableEq

/-- One result row: the dict `column → value`. -/
abbrev Row := List (Str × Scalar)

/-- Python `row.get(col)`: `none` when the key is absent. -/
def rowGet (row : Row) (col : Str) : Option Scalar :=
  (row.find? (fun e => e.1 == col)).map (·.2)

/-- The query-result dict `{"columns": ..., "rows": ...}` as consumed by
`analyze_data_shape`. -/
structure QueryData where
  columns : List Str := []
  rows : List Row := []

/-- The dict returned by `analyze_data_shape`. The empty-result branch of the
source omits the `date_columns` key, hence the `Option`. -/
structure DataShape where
  num_columns : Nat
  num_rows : Nat
  has_time_series : Bool
  numeric_columns : List Str
  text_columns : List Str
  date_columns : Option (List Str)
  is_aggregated : Bool
deriving DecidableEq

/-- The date-name keywords of `analyze_data_shape` (line 50). -/
def DATE_NAME_KEYWORDS : List Str :=
  [lit "date", lit "time", lit "year", lit "month", lit "day"]

/-- The aggregation-name keywords of `analyze_data_shape` (line 57). -/
def AGG_NAME_KEYWORDS : List Str :=
  [lit "sum", lit "avg", lit "count", lit "min", lit "max"]

/-- `any(keyword in col.lower() for keyword in ["date","time","year","month","day"])`. -/
def isDateName (col : Str) : Bool :=
  DATE_NAME_KEYWORDS.any (fun k => containsSub k (pyLower col))

/-- The column-classification loop of `analyze_data_shape` (lines 41-53),
returning `(numeric_columns, text_columns, date_columns)` in column order. -/
def classifyColumns (first_row : Row) : List Str → List Str × List Str × List Str
  | [] => ([], [], [])
  | col :: rest =>
    let (nums, texts, dates) := classifyColumns first_row rest
    match rowGet first_row col with
    | none => (nums, texts, dates)
    | some .null => (nums, texts, dates)
    | some (.int _) => (col :: nums, texts, dates)
    | some (.str _) =>
      if isDateName col then (nums, texts, col :: dates) else (nums, col :: texts, dates)

/-- `analyze_data_shape` from `app/utils/chart_mapper.py` (lines 12-72). -/
def analyze_data_shape (data : QueryData) : DataShape :=
  let columns := data.columns
  match data.rows with
  | [] =>
    { num_columns := columns.length, num_rows := 0, has_time_series := false,
      numeric_columns := [], text_columns := [], date_columns := none,
      is_aggregated := false }
  | first_row :: rest =>
    let (nums, texts, dates) := classifyColumns first_row columns
    let is_aggregated :=
      columns.any (fun col => AGG_NAME_KEYWORDS.any (fun a => containsSub a (pyLower col)))
    let has_time_series := !dates.isEmpty && !nums.isEmpty
    { num_columns := columns.length, num_rows := (first_row :: rest).length,
      has_time_series := has_time_series, numeric_columns := nums,
      text_columns := texts, date_columns := some dates, is_aggregated := is_aggregated }

/-- The chart type enumeration. -/
inductive ChartType where
  | kpi | line | bar | pie | scatter | table
deriving DecidableEq

/-- `select_chart_type` from `app/utils/chart_mapper.py` (lines 75-120). -/
def select_chart_type (d : DataShape) : ChartType :=
  let num_cols := d.num_columns
  let num_rows := d.num_rows
  let has_time := d.has_time_series
  let num_numeric := d.numeric_columns.length
  let num_text := d.text_columns.length
  if num_cols == 1 && num_rows == 1 then .kpi
  else if has_time && decide (num_numeric ≥ 1) then .line
  else if decide (num_text ≥ 1) && decide (num_numeric ≥ 1) then .bar
  else if decide (num_numeric ≥ 2) && num_text == 0 then .scatter
  else if decide (num_rows ≤ 10) && num_text == 1 && num_numeric == 1 then .pie
  else .table

/-! ## app/core/cache.py and SQLGenerator.execute_sql -/

/-- The result dict of `execute_query_safe`:
`{"columns": ..., "rows": ..., "row_count": len(rows)}`. -/
structure QueryResult where
  columns : List Str
  rows : List Row
  row_count : Nat
deriving DecidableEq

/-- One Redis key with its value and absolute expiry instant (`none` =
no TTL, i.e. permanent). -/
structure CacheEntry where
  key : Str
  value : QueryResult
  expires_at : Option Nat
deriving DecidableEq

/-- The cache store state: Redis modelled as a key/value map with expiries. -/
abbrev CacheState := List CacheEntry

/-- `get_cached` from `app/core/cache.py`: an expired or absent key reads as
`None`. `now` is the current time in seconds. -/
def get_cached (now : Nat) (key : Str) (st : CacheState) : Option QueryResult :=
  match st.find? (fun e => e.key == key) with
  | none => none
  | some e =>
    match e.expires_at with
    | none => some e.value
    | some t => if now < t then some e.value else none

/-- `set_cached` from `app/core/cache.py`: `if ttl:` (Python truthiness, so a
zero TTL stores permanently) selects SETEX over SET; either way the key is
overwritten. -/
def set_cached (now : Nat) (key : Str) (value : QueryResult) (ttl : Nat)
    (st : CacheState) : CacheState :=
  { key := key, value := value, expires_at := if ttl != 0 then some (now + ttl) else none }
    :: st.filter (fun e => !(e.key == key))

/-- `generate_cache_key` from `app/core/cache.py`:
`f"{prefix}:{sha256(':'.join(args))[:16]}"`. The truncated SHA-256 hex digest
is modelled by the abstract deterministic function `hashFn`; only its
determinism matters to the verified properties. -/
def generate_cache_key (hashFn : Str → Str) (pfx : Str) (args : List Str) : Str :=
  pfx ++ ':' :: hashFn (List.intercalate [':'] args)

/-- The cache key computed in `SQLGenerator.execute_sql` (lines 83-84):
`sql_hash = sha256(sql)[:16]; generate_cache_key("sql_result", sql_hash)`. -/
def sqlCacheKey (hashFn : Str → Str) (sql : Str) : Str :=
  generate_cache_key hashFn (lit "sql_result") [hashFn sql]

/-- `execute_query_safe` from `app/core/database.py` (lines 135-196), with the
database modelled as the oracle `db` mapping the final (limit-injected) SQL
text to a result. An unsafe query raises `ValueError` (the `.error` case,
carrying the validator's reason). Timeouts and driver failures are outside
the oracle model. -/
def execute_query_safe (db : Str → QueryResult) (sql : Str) :
    Except (Option SafetyReason) QueryResult :=
  let v := validate_sql_safety sql
  if v.1 then .ok (db (inject_limit_clause sql none)) else .error v.2

/-- `SQLGenerator.execute_sql` from `app/agents/sql_generator.py`
(lines 72-103). Returns the result, the new cache state, and whether a real
database execution was issued (`false` on a cache hit: the cached result dict
always has three keys, so the `if cached_result:` truthiness test succeeds on
every hit). -/
def execute_sql (db : Str → QueryResult) (hashFn : Str → Str) (now : Nat) (sql : Str)
    (st : CacheState) : Except (Option SafetyReason) (QueryResult × CacheState × Bool) :=
  let cache_key := sqlCacheKey hashFn sql
  match get_cached now cache_key st with
  | some cached_result => .ok (cached_result, st, false)
  | none =>
    match execute_query_safe db sql with
    | .error e => .error e
    | .ok result =>
      .ok (result, set_cached now cache_key result settings.cache_ttl_seconds st, true)

/-! ## Spec-side and proof-support definitions -/

/-- The boundary condition to the left of an occurrence whose preceding text is
`u`, inside a scan whose incoming flag is `prev`. -/
def prevOk (prev : Bool) (u : Str) : Prop :=
  match u.reverse with
  | [] => prev = false
  | c :: _ => isWordChar c = false

/-- `kw` occurs in `s` delimited by word boundaries on both sides. -/
def TokenOcc (kw s : Str) : Prop :=
  ∃ u v, s = u ++ kw ++ v ∧ headNotWord u.reverse = true ∧ headNotWord v = true

/-- The text appended by `inject_limit_clause` under the default row limit. -/
def limitTail : Str := lit " LIMIT 10000"

/-- Modelled from the claim's wording (C5): the ordered cascade for chart
selection, first matching rule wins. -/
def chartCascadeSpec (d : DataShape) : ChartType :=
  if d.num_columns = 1 ∧ d.num_rows = 1 then .kpi
  else if d.has_time_series = true ∧ 1 ≤ d.numeric_columns.length then .line
  else if 1 ≤ d.text_columns.length ∧ 1 ≤ d.numeric_columns.length then .bar
  else if 2 ≤ d.numeric_columns.length ∧ d.text_columns.length = 0 then .scatter
  else if d.num_rows ≤ 10 ∧ d.text_columns.length = 1 ∧ d.numeric_columns.length = 1 then .pie
  else .table

/-- Modelled from the claim's wording (C6): the first-row value of the column
is a numeric scalar. -/
def specNumericCol (first_row : Row) (col : Str) : Bool :=
  match rowGet first_row col with
  | some (.int _) => true
  | _ => false

/-- Modelled from the claim's wording (C6): the first-row value is a string
and the column name contains a date keyword (case-insensitively). -/
def specDateCol (first_row : Row) (col : Str) : Bool :=
  match rowGet first_row col with
  | some (.str _) => isDateName col
  | _ => false

/-- Modelled from the claim's wording (C6): the first-row value is a string
whose column name contains no date keyword. -/
def specTextCol (first_row : Row) (col : Str) : Bool :=
  match rowGet first_row col with
  | some (.str _) => !isDateName col
  | _ => false

/-- Modelled from the claim's wording (C4): every semicolon of the string
occurs only as a single trailing terminator. -/
def semicolonSingleTrailingOnly (s : Str) : Bool :=
  !s.contains ';' || (s.getLast? == some ';' && !(s.dropLast.contains ';'))

/-- A plan carrying an aggregation value outside the `{SUM,AVG,COUNT,MIN,MAX}`
enum, used to test the compiler's (absent) enum validation. -/
def c2BadPlan : AnalysisPlan :=
  { table := some (lit "sales"),
    metrics := [{ column := lit "amount", aggregation := some (lit "FROBNICATE") }] }

/-- A well-formed single-metric plan. -/
def c2OkPlan : AnalysisPlan :=
  { table := some (lit "t"),
    metrics := [{ column := lit "x", aggregation := some (lit "SUM") }] }

/-- Modelled from the claim's wording (C8): the emitted projection item
`AGG(ref) AS <lastSegmentOfColumn>_<agg lowercased>`, where `ref` is the
metric's table (defaulting to the plan's root table) prefixed to the column
when the plan has at least one join and the column contains no dot, and the
raw column otherwise. -/
def specMetricProjection (rootTable : Str) (joins : List Join) (m : Metric) (a : Str) : Str :=
  let ref :=
    if 1 ≤ joins.length ∧ m.column.contains '.' = false then
      (m.table.getD rootTable) ++ '.' :: m.column
    else m.column
  a ++ '(' :: ref ++ lit ") AS " ++ lastSegment m.column ++ '_' :: pyLower a

/-- A plan with a metric without aggregation and a non-empty joins list. -/
def c9Plan : AnalysisPlan :=
  { table := some (lit "sales"),
    metrics := [{ column := lit "amount" }],
    dimensions := [lit "region"],
    joins := [{ table := lit "regions", on_column := lit "id",
                from_column := lit "region_id" }] }

/-! ## Basic lemmas about the string primitives -/

theorem strStartsWith_iff (p s : Str) : strStartsWith p s = true ↔ ∃ v, s = p ++ v := by
  induction p generalizing s with
  | nil => simp [strStartsWith]
  | cons a ps ih =>
    cases s with
    | nil => simp [strStartsWith]
    | cons b ss =>
      simp only [strStartsWith, Bool.and_eq_true, beq_iff_eq, ih]
      constructor
      · rintro ⟨rfl, v, rfl⟩
        exact ⟨v, rfl⟩
      · rintro ⟨v, hv⟩
        injection hv with h1 h2
        exact ⟨h1.symm, v, h2⟩

theorem containsSub_iff (p s : Str) : containsSub p s = true ↔ ∃ u v, s = u ++ p ++ v := by
  induction s with
  | nil =>
    simp only [containsSub, List.isEmpty_iff]
    constructor
    · rintro rfl
      exact ⟨[], [], rfl⟩
    · rintro ⟨u, v, huv⟩
      rcases List.append_eq_nil.mp huv.symm with ⟨h1, h2⟩
      exact (List.append_eq_nil.mp h1).2
  | cons c rest ih =>
    simp only [containsSub, Bool.or_eq_true, strStartsWith_iff, ih]
    constructor
    · rintro (⟨v, hv⟩ | ⟨u, v, hv⟩)
      · exact ⟨[], v, by simpa using hv⟩
      · exact ⟨c :: u, v, by simp [hv]⟩
    · rintro ⟨u, v, huv⟩
      cases u with
      | nil => exact Or.inl ⟨v, by simpa using huv⟩
      | cons a u' =>
        injection huv with h1 h2
        exact Or.inr ⟨u', v, h2⟩

theorem containsSub_of_within (p t u w : Str) (h : containsSub p t = true) :
    containsSub p (u ++ t ++ w) = true := by
  rw [containsSub_iff] at h ⊢
  obtain ⟨a, b, rfl⟩ := h
  exact ⟨u ++ a, b ++ w, by simp⟩

theorem contains_iff_mem (s : Str) (c : Char) : s.contains c = true ↔ c ∈ s := by
  simp

/-! Lemmas about `rstripP`. -/

theorem rstripP_nil (q : Char → Bool) : rstripP q [] = [] := rfl

theorem rstripP_cons (q : Char → Bool) (c : Char) (x : Str) :
    rstripP q (c :: x) =
      if rstripP q x = [] then (if q c then [] else [c]) else c :: rstripP q x := by
  unfold rstripP
  rw [List.reverse_cons, List.dropWhile_append]
  rcases hx : x.reverse.dropWhile q with _ | ⟨d, l⟩
  · simp only [List.isEmpty_nil, List.dropWhile_cons, if_true, rstripP, hx,
      List.reverse_nil]
    by_cases hq : q c = true <;> simp [hq]
  · simp [hx]

theorem rstripP_decomp (q : Char → Bool) (s : Str) :
    ∃ w, s = rstripP q s ++ w ∧ ∀ c ∈ w, q c = true := by
  refine ⟨(s.reverse.takeWhile q).reverse, ?_, ?_⟩
  · have h : s.reverse.takeWhile q ++ s.reverse.dropWhile q = s.reverse :=
      List.takeWhile_append_dropWhile q s.reverse
    calc s = s.reverse.reverse := s.reverse_reverse.symm
      _ = (s.reverse.takeWhile q ++ s.reverse.dropWhile q).reverse := by rw [h]
      _ = rstripP q s ++ (s.reverse.takeWhile q).reverse := by
          rw [List.reverse_append]; rfl
  · intro c hc
    exact List.mem_takeWhile_imp (List.mem_reverse.mp hc)

theorem rstripP_dropWhile_comm (q p : Char → Bool) (x : Str) :
    rstripP q (x.dropWhile p) = (rstripP q x).dropWhile p := by
  induction x with
  | nil => rfl
  | cons c rest ih =>
    by_cases hp : p c = true
    · rw [List.dropWhile_cons, if_pos hp, ih, rstripP_cons]
      by_cases h0 : rstripP q rest = []
      · by_cases hq : q c = true <;> simp [h0, hq, hp, List.dropWhile_cons]
      · simp [h0, List.dropWhile_cons, hp]
    · rw [List.dropWhile_cons, if_neg hp, rstripP_cons]
      by_cases h0 : rstripP q rest = []
      · by_cases hq : q c = true <;> simp [h0, hq, List.dropWhile_cons, hp]
      · simp [h0, List.dropWhile_cons, hp]

theorem rstripP_append_nq (q : Char → Bool) (x : Str) (c : Char) (tl : Str)
    (hc : q c = false) : rstripP q (x ++ c :: tl) = x ++ c :: rstripP q tl := by
  unfold rstripP
  rw [List.reverse_append, List.reverse_cons, List.dropWhile_append, List.dropWhile_append]
  rcases ht : tl.reverse.dropWhile q with _ | ⟨d, l⟩
  · simp [List.dropWhile_cons, hc, rstripP, ht]
  · simp [List.dropWhile_cons, hc, rstripP, ht]

/-! ## Word-boundary token occurrences -/

theorem tokenAt_iff (kw s : Str) (prev : Bool) :
    tokenAt kw s prev = true ↔ prev = false ∧ ∃ v, s = kw ++ v ∧ headNotWord v = true := by
  unfold tokenAt
  simp only [Bool.and_eq_true, Bool.not_eq_true']
  constructor
  · rintro ⟨⟨hprev, hpre⟩, hnw⟩
    obtain ⟨v, rfl⟩ := (strStartsWith_iff kw s).mp hpre
    rw [List.drop_left] at hnw
    exact ⟨hprev, v, rfl, hnw⟩
  · rintro ⟨hprev, v, rfl, hnw⟩
    refine ⟨⟨hprev, (strStartsWith_iff _ _).mpr ⟨v, rfl⟩⟩, ?_⟩
    rw [List.drop_left]
    exact hnw

theorem prevOk_cons (prev : Bool) (c : Char) (u : Str) :
    prevOk prev (c :: u) ↔ prevOk (isWordChar c) u := by
  unfold prevOk
  rw [List.reverse_cons]
  cases hur : u.reverse with
  | nil => simp
  | cons d l => simp

theorem prevOk_false (u : Str) : prevOk false u ↔ headNotWord u.reverse = true := by
  unfold prevOk headNotWord
  cases u.reverse with
  | nil => simp
  | cons c l => simp [Bool.not_eq_true']

theorem hasTokenAux_iff (kw : Str) (hk : kw ≠ []) (s : Str) (prev : Bool) :
    hasTokenAux kw s prev = true ↔
      ∃ u v, s = u ++ kw ++ v ∧ prevOk prev u ∧ headNotWord v = true := by
  induction s generalizing prev with
  | nil =>
    simp only [hasTokenAux]
    constructor
    · intro h
      cases h
    · rintro ⟨u, v, huv, -, -⟩
      exact absurd ((List.append_eq_nil.mp
        ((List.append_eq_nil.mp huv.symm).1)).2) hk
  | cons c rest ih =>
    have hstep : hasTokenAux kw (c :: rest) prev =
        (tokenAt kw (c :: rest) prev || hasTokenAux kw rest (isWordChar c)) := rfl
    rw [hstep]
    simp only [Bool.or_eq_true, tokenAt_iff, ih]
    constructor
    · rintro (⟨hprev, v, hv, hnw⟩ | ⟨u, v, hv, hpok, hnw⟩)
      · exact ⟨[], v, by simpa using hv, by simp [prevOk, hprev], hnw⟩
      · refine ⟨c :: u, v, by simp [hv], (prevOk_cons prev c u).mpr hpok, hnw⟩
    · rintro ⟨u, v, huv, hpok, hnw⟩
      cases u with
      | nil =>
        refine Or.inl ⟨?_, v, by simpa using huv, hnw⟩
        simpa [prevOk] using hpok
      | cons a u' =>
        injection huv with h1 h2
        subst h1
        exact Or.inr ⟨u', v, h2, (prevOk_cons prev c u').mp hpok, hnw⟩

theorem hasWordBoundaryToken_iff (kw : Str) (hk : kw ≠ []) (s : Str) :
    hasWordBoundaryToken kw s = true ↔ TokenOcc kw s := by
  unfold hasWordBoundaryToken TokenOcc
  rw [hasTokenAux_iff kw hk s false]
  constructor
  · rintro ⟨u, v, huv, hpok, hnw⟩
    exact ⟨u, v, huv, (prevOk_false u).mp hpok, hnw⟩
  · rintro ⟨u, v, huv, hu, hnw⟩
    exact ⟨u, v, huv, (prevOk_false u).mpr hu, hnw⟩

theorem tokenOcc_extend (kw t E W : Str)
    (hE : ∀ c ∈ E, isWordChar c = false) (hW : ∀ c ∈ W, isWordChar c = false)
    (h : TokenOcc kw t) : TokenOcc kw (E ++ t ++ W) := by
  obtain ⟨u, v, rfl, hu, hv⟩ := h
  refine ⟨E ++ u, v ++ W, by simp, ?_, ?_⟩
  · rw [List.reverse_append]
    cases hur : u.reverse with
    | cons d l =>
      rw [hur] at hu
      simpa [headNotWord] using (by simpa [headNotWord] using hu : isWordChar d = false)
    | nil =>
      cases hEr : E.reverse with
      | nil => simp [headNotWord]
      | cons e l =>
        have he : e ∈ E := by
          have : e ∈ E.reverse := by rw [hEr]; exact List.mem_cons_self e l
          exact List.mem_reverse.mp this
        simp [headNotWord, hE e he]
  · cases v with
    | cons d l =>
      simpa [headNotWord] using (by simpa [headNotWord] using hv : isWordChar d = false)
    | nil =>
      cases W with
      | nil => simp [headNotWord]
      | cons w l => simp [headNotWord, hW w (List.mem_cons_self w l)]

theorem tokenOcc_append_cases (kw x y : Str) (h : TokenOcc kw (x ++ y)) :
    TokenOcc kw x ∨ TokenOcc kw y ∨ ∃ c, y.head? = some c ∧ c ∈ kw := by
  obtain ⟨u, v, huv, hu, hv⟩ := h
  rcases List.append_eq_append_iff.mp huv.symm with ⟨a, ha1, ha2⟩ | ⟨b, hb1, hb2⟩
  · -- x = (u ++ kw) ++ a, v = a ++ y : the occurrence lies inside x
    refine Or.inl ⟨u, a, ha1, hu, ?_⟩
    cases a with
    | nil => simp [headNotWord]
    | cons d l =>
      rw [ha2] at hv
      simpa [headNotWord] using hv
  · rcases List.append_eq_append_iff.mp hb1 with ⟨e, he1, he2⟩ | ⟨f, hf1, hf2⟩
    · -- x = u ++ e, kw = e ++ b
      cases b with
      | nil =>
        -- kw = e : the occurrence ends exactly at the end of x
        simp only [List.append_nil] at he2
        subst he2
        exact Or.inl ⟨u, [], by simp [he1], hu, by simp [headNotWord]⟩
      | cons d l =>
        -- y starts with a character of kw
        refine Or.inr (Or.inr ⟨d, by simp [hb2], ?_⟩)
        rw [he2]
        exact List.mem_append.mpr (Or.inr (List.mem_cons_self d l))
    · -- u = x ++ f, b = f ++ kw : the occurrence lies inside y
      refine Or.inr (Or.inl ⟨f, v, by rw [hb2, hf2], ?_, hv⟩)
      rw [hf1, List.reverse_append] at hu
      cases hfr : f.reverse with
      | cons d l =>
        rw [hfr] at hu
        simpa [headNotWord] using hu
      | nil => simp [headNotWord]

/-! ## Character-class facts and the stripped-core decomposition -/

theorem isWordChar_toUpper_of_ws (c : Char) (h : c.isWhitespace = true) :
    isWordChar c.toUpper = false := by
  simp [Char.isWhitespace] at h
  rcases h with ((h | h) | h) | h <;> subst h <;> decide

theorem pyUpper_append (a b : Str) : pyUpper (a ++ b) = pyUpper a ++ pyUpper b :=
  List.map_append Char.toUpper a b

theorem strip_decomp (s : Str) :
    ∃ u w, s = u ++ rstripSemi (stripWS s) ++ w ∧
      (∀ c ∈ u, c.isWhitespace = true) ∧ (∀ c ∈ w, c.isWhitespace = true ∨ c = ';') := by
  obtain ⟨w2, hw2, hw2p⟩ := rstripP_decomp (· == ';') (stripWS s)
  obtain ⟨w1, hw1, hw1p⟩ := rstripP_decomp Char.isWhitespace (s.dropWhile Char.isWhitespace)
  have hw2' : stripWS s = rstripSemi (stripWS s) ++ w2 := hw2
  have hw1' : s.dropWhile Char.isWhitespace = stripWS s ++ w1 := hw1
  refine ⟨s.takeWhile Char.isWhitespace, w2 ++ w1, ?_, ?_, ?_⟩
  · calc s = s.takeWhile Char.isWhitespace ++ s.dropWhile Char.isWhitespace :=
        (List.takeWhile_append_dropWhile Char.isWhitespace s).symm
      _ = s.takeWhile Char.isWhitespace ++ (stripWS s ++ w1) := by
          rw [← hw1']
      _ = s.takeWhile Char.isWhitespace ++ ((rstripSemi (stripWS s) ++ w2) ++ w1) := by
          rw [← hw2']
      _ = s.takeWhile Char.isWhitespace ++ rstripSemi (stripWS s) ++ (w2 ++ w1) := by
          simp [List.append_assoc]
  · intro c hc
    exact List.mem_takeWhile_imp hc
  · intro c hc
    rcases List.mem_append.mp hc with hc2 | hc1
    · exact Or.inr (by simpa using hw2p c hc2)
    · exact Or.inl (hw1p c hc1)

theorem tokenOcc_strip_lift (kw s : Str)
    (h : TokenOcc kw (pyUpper (rstripSemi (stripWS s)))) : TokenOcc kw (pyUpper s) := by
  obtain ⟨u, w, hs, hu, hw⟩ := strip_decomp s
  have hsu : pyUpper s = pyUpper u ++ pyUpper (rstripSemi (stripWS s)) ++ pyUpper w := by
    conv_lhs => rw [hs]
    rw [pyUpper_append, pyUpper_append]
  rw [hsu]
  refine tokenOcc_extend kw _ _ _ ?_ ?_ h
  · intro c hc
    obtain ⟨d, hd, rfl⟩ := List.mem_map.mp hc
    exact isWordChar_toUpper_of_ws d (hu d hd)
  · intro c hc
    obtain ⟨d, hd, rfl⟩ := List.mem_map.mp hc
    rcases hw d hd with h' | rfl
    · exact isWordChar_toUpper_of_ws d h'
    · decide

theorem containsSub_strip_lift (p s : Str)
    (h : containsSub p (rstripSemi (stripWS s)) = true) : containsSub p s = true := by
  obtain ⟨u, w, hs, -, -⟩ := strip_decomp s
  rw [hs]
  exact containsSub_of_within p _ u w h

/-- `rstripSemi (stripWS s)` is `rstripSemi (rstripWS s)` with its leading
whitespace removed: the two trailing strips commute with the leading strip. -/
theorem rstripSemi_stripWS_eq (s : Str) :
    rstripSemi (stripWS s) = (rstripSemi (rstripWS s)).dropWhile Char.isWhitespace := by
  unfold rstripSemi stripWS rstripWS
  rw [rstripP_dropWhile_comm, rstripP_dropWhile_comm]

theorem mem_rstripP (q : Char → Bool) (s : Str) (c : Char) (h : c ∈ rstripP q s) : c ∈ s := by
  obtain ⟨w, hw, -⟩ := rstripP_decomp q s
  rw [hw]
  exact List.mem_append.mpr (Or.inl h)

theorem semifree_stripped (s : Str)
    (h : (rstripSemi (rstripWS s)).contains ';' = false) :
    ∀ c ∈ rstripSemi (stripWS s), c ≠ ';' := by
  rw [rstripSemi_stripWS_eq]
  intro c hc hceq
  subst hceq
  have hc2 : (';' : Char) ∈ rstripSemi (rstripWS s) :=
    (List.dropWhile_sublist _).subset hc
  rw [← contains_iff_mem] at hc2
  rw [h] at hc2
  cases hc2

/-! ## Characterization of the safety gate -/

theorem validate_ok_iff (s : Str) :
    validate_sql_safety s = (true, none) ↔
      (∀ kw ∈ SQL_FORBIDDEN_KEYWORDS, hasWordBoundaryToken kw (pyUpper s) = false) ∧
      containsSub (lit "--") s = false ∧ containsSub (lit "/*") s = false ∧
      (rstripSemi (rstripWS s)).contains ';' = false := by
  unfold validate_sql_safety
  rcases hF : SQL_FORBIDDEN_KEYWORDS.find?
      (fun kw => hasWordBoundaryToken kw (pyUpper s)) with _ | kw
  · have hall : ∀ kw ∈ SQL_FORBIDDEN_KEYWORDS, hasWordBoundaryToken kw (pyUpper s) = false := by
      intro kw hkw
      have := List.find?_eq_none.mp hF kw hkw
      simpa using this
    simp only [hF, hall, true_and]
    by_cases h1 : containsSub (lit "--") s = true
    · simp [h1]
    · by_cases h2 : containsSub (lit "/*") s = true
      · simp [h1, h2]
      · by_cases h3 : (rstripSemi (rstripWS s)).contains ';' = true
        · simp [h1, h2, h3]
          exact fun _ => hall
        · simp only [Bool.not_eq_true] at h1 h2 h3
          simp [h1, h2, h3]
          exact fun _ => hall
  · simp only [hF]
    constructor
    · intro h
      cases h
    · rintro ⟨hall, -⟩
      have h1 := List.find?_some hF
      have h2 := List.mem_of_find?_eq_some hF
      rw [hall kw h2] at h1
      cases h1

/-! ## Preservation of safety under limit injection -/

theorem containsSub_append_cases (p x y : Str) (h : containsSub p (x ++ y) = true) :
    containsSub p x = true ∨ containsSub p y = true ∨ ∃ c, y.head? = some c ∧ c ∈ p := by
  obtain ⟨u, v, huv⟩ := (containsSub_iff p (x ++ y)).mp h
  rcases List.append_eq_append_iff.mp huv.symm with ⟨a, ha1, ha2⟩ | ⟨b, hb1, hb2⟩
  · exact Or.inl ((containsSub_iff p x).mpr ⟨u, a, ha1⟩)
  · rcases List.append_eq_append_iff.mp hb1 with ⟨e, he1, he2⟩ | ⟨f, hf1, hf2⟩
    · cases b with
      | nil =>
        simp only [List.append_nil] at he2
        subst he2
        exact Or.inl ((containsSub_iff p x).mpr ⟨u, [], by simp [he1]⟩)
      | cons d l =>
        refine Or.inr (Or.inr ⟨d, by simp [hb2], ?_⟩)
        rw [he2]
        exact List.mem_append.mpr (Or.inr (List.mem_cons_self d l))
    · exact Or.inr (Or.inl ((containsSub_iff p y).mpr ⟨f, v, by rw [hb2, hf2]⟩))

theorem forbidden_kw_ne_nil : ∀ kw ∈ SQL_FORBIDDEN_KEYWORDS, kw ≠ [] := by decide

theorem forbidden_kw_not_in_tail :
    ∀ kw ∈ SQL_FORBIDDEN_KEYWORDS, hasWordBoundaryToken kw limitTail = false := by decide

theorem forbidden_kw_no_space : ∀ kw ∈ SQL_FORBIDDEN_KEYWORDS, ¬ (' ' ∈ kw) := by decide

theorem pyUpper_limitTail : pyUpper limitTail = limitTail := by decide

theorem tail_strip_id (x : Str) :
    rstripSemi (rstripWS (x ++ limitTail)) = x ++ limitTail := by
  have hsplit : x ++ limitTail = (x ++ lit " LIMIT 1000") ++ '0' :: [] := by
    rw [List.append_assoc]
    rfl
  rw [hsplit]
  unfold rstripWS rstripSemi
  rw [rstripP_append_nq Char.isWhitespace _ '0' [] (by decide)]
  rw [rstripP_append_nq (· == ';') _ '0' _ (by decide)]
  rfl

theorem no_kw_in_result (s : Str)
    (hkw : ∀ kw ∈ SQL_FORBIDDEN_KEYWORDS, hasWordBoundaryToken kw (pyUpper s) = false) :
    ∀ kw ∈ SQL_FORBIDDEN_KEYWORDS,
      hasWordBoundaryToken kw (pyUpper (rstripSemi (stripWS s))) = false := by
  intro kw hmem
  by_contra hpos
  rw [Bool.not_eq_false] at hpos
  have hocc := (hasWordBoundaryToken_iff kw (forbidden_kw_ne_nil kw hmem) _).mp hpos
  have hlift := tokenOcc_strip_lift kw s hocc
  have := (hasWordBoundaryToken_iff kw (forbidden_kw_ne_nil kw hmem) _).mpr hlift
  rw [hkw kw hmem] at this
  cases this

theorem no_kw_in_appended (s : Str)
    (hkw : ∀ kw ∈ SQL_FORBIDDEN_KEYWORDS, hasWordBoundaryToken kw (pyUpper s) = false) :
    ∀ kw ∈ SQL_FORBIDDEN_KEYWORDS,
      hasWordBoundaryToken kw (pyUpper (rstripSemi (stripWS s) ++ limitTail)) = false := by
  intro kw hmem
  by_contra hpos
  rw [Bool.not_eq_false] at hpos
  rw [pyUpper_append, pyUpper_limitTail] at hpos
  have hocc := (hasWordBoundaryToken_iff kw (forbidden_kw_ne_nil kw hmem) _).mp hpos
  rcases tokenOcc_append_cases kw _ _ hocc with hx | hy | ⟨c, hc1, hc2⟩
  · have hlift := tokenOcc_strip_lift kw s hx
    have := (hasWordBoundaryToken_iff kw (forbidden_kw_ne_nil kw hmem) _).mpr hlift
    rw [hkw kw hmem] at this
    cases this
  · have := (hasWordBoundaryToken_iff kw (forbidden_kw_ne_nil kw hmem) _).mpr hy
    rw [forbidden_kw_not_in_tail kw hmem] at this
    cases this
  · have hsp : c = ' ' := by
      have : limitTail.head? = some ' ' := by decide
      rw [this] at hc1
      injection hc1 with h
      exact h.symm
    subst hsp
    exact forbidden_kw_no_space kw hmem hc2

/--
C10 core: limit injection (with the pipeline's default row limit) preserves
acceptance by the safety validator.
-/
theorem inject_preserves_safety (s : Str) (h : validate_sql_safety s = (true, none)) :
    validate_sql_safety (inject_limit_clause s none) = (true, none) := by
  obtain ⟨hkw, hc1, hc2, hsem⟩ := (validate_ok_iff s).mp h
  have hsemifree := semifree_stripped s hsem
  have htail : lit " LIMIT " ++ (Nat.repr ((none : Option Nat).getD settings.max_rows)).toList
      = limitTail := by decide
  unfold inject_limit_clause
  by_cases hlim : containsSub (lit "LIMIT") (pyUpper (rstripSemi (stripWS s))) = true
  · simp only [hlim, if_true]
    rw [validate_ok_iff]
    refine ⟨no_kw_in_result s hkw, ?_, ?_, ?_⟩
    · by_contra hpos
      rw [Bool.not_eq_false] at hpos
      rw [containsSub_strip_lift _ s hpos] at hc1
      cases hc1
    · by_contra hpos
      rw [Bool.not_eq_false] at hpos
      rw [containsSub_strip_lift _ s hpos] at hc2
      cases hc2
    · rw [Bool.eq_false_iff]
      intro hpos
      rw [contains_iff_mem] at hpos
      have h1 := mem_rstripP _ _ _ hpos
      have h2 := mem_rstripP _ _ _ h1
      exact hsemifree ';' h2 rfl
  · simp only [hlim, if_false, Bool.false_eq_true]
    rw [List.append_assoc, htail, validate_ok_iff]
    refine ⟨no_kw_in_appended s hkw, ?_, ?_, ?_⟩
    · by_contra hpos
      rw [Bool.not_eq_false] at hpos
      rcases containsSub_append_cases _ _ _ hpos with hx | hy | ⟨c, hcc1, hcc2⟩
      · rw [containsSub_strip_lift _ s hx] at hc1
        cases hc1
      · rw [(by decide : containsSub (lit "--") limitTail = false)] at hy
        cases hy
      · have : c = ' ' := by
          have hh : limitTail.head? = some ' ' := by decide
          rw [hh] at hcc1
          injection hcc1 with h'
          exact h'.symm
        subst this
        exact (by decide : ¬ (' ' ∈ lit "--")) hcc2
    · by_contra hpos
      rw [Bool.not_eq_false] at hpos
      rcases containsSub_append_cases _ _ _ hpos with hx | hy | ⟨c, hcc1, hcc2⟩
      · rw [containsSub_strip_lift _ s hx] at hc2
        cases hc2
      · rw [(by decide : containsSub (lit "/*") limitTail = false)] at hy
        cases hy
      · have : c = ' ' := by
          have hh : limitTail.head? = some ' ' := by decide
          rw [hh] at hcc1
          injection hcc1 with h'
          exact h'.symm
        subst this
        exact (by decide : ¬ (' ' ∈ lit "/*")) hcc2
    · rw [tail_strip_id, Bool.eq_false_iff]
      intro hpos
      rw [contains_iff_mem] at hpos
      rcases List.mem_append.mp hpos with hx | hy
      · exact hsemifree ';' hx rfl
      · exact (by decide : ¬ (';' ∈ limitTail)) hy

/-! ## Chart shape engine: spec-side definitions and equivalences -/

theorem classifyColumns_eq (r : Row) (cols : List Str) :
    classifyColumns r cols =
      (cols.filter (specNumericCol r), cols.filter (specTextCol r),
       cols.filter (specDateCol r)) := by
  induction cols with
  | nil => rfl
  | cons c rest ih =>
    simp only [classifyColumns, ih]
    rcases hv : rowGet r c with _ | sc
    · simp [List.filter_cons, specNumericCol, specTextCol, specDateCol, hv]
    · cases sc with
      | int n => simp [List.filter_cons, specNumericCol, specTextCol, specDateCol, hv]
      | null => simp [List.filter_cons, specNumericCol, specTextCol, specDateCol, hv]
      | str st =>
        by_cases hd : isDateName c = true <;>
          simp [List.filter_cons, specNumericCol, specTextCol, specDateCol, hv, hd]

theorem bnot_isEmpty_eq_decide (l : List Str) : (!l.isEmpty) = decide (l ≠ []) := by
  cases l <;> simp

/--
C5: for every data shape, the chart-type selector evaluates the rules as an
ordered cascade with first-match-wins: 1 column and 1 row → kpi; else
time series with ≥1 numeric column → line; else ≥1 text and ≥1 numeric →
bar; else ≥2 numeric and 0 text → scatter; else ≤10 rows with exactly one
text and one numeric column → pie; otherwise table.
-/
theorem C5_chart_type_cascade (d : DataShape) : select_chart_type d = chartCascadeSpec d := by
  unfold select_chart_type chartCascadeSpec
  simp only [Bool.and_eq_true, beq_iff_eq, decide_eq_true_eq, ge_iff_le, and_assoc]

/--
C6: for every non-empty query result, the profiler classifies each column
from the first row's value only (numeric scalar → numeric; string with a
date-keyword column name → date; other string → text; null skipped), sets
`is_aggregated` iff some column name contains an aggregation word as a
case-insensitive substring, and sets `has_time_series` iff at least one date
column and one numeric column exist.
-/
theorem C6_analyze_data_shape (cols : List Str) (r : Row) (rs : List Row) :
    analyze_data_shape { columns := cols, rows := r :: rs } =
      { num_columns := cols.length,
        num_rows := rs.length + 1,
        has_time_series :=
          decide (cols.filter (specDateCol r) ≠ [] ∧ cols.filter (specNumericCol r) ≠ []),
        numeric_columns := cols.filter (specNumericCol r),
        text_columns := cols.filter (specTextCol r),
        date_columns := some (cols.filter (specDateCol r)),
        is_aggregated :=
          decide (∃ col ∈ cols, ∃ a ∈ AGG_NAME_KEYWORDS, containsSub a (pyLower col) = true) } := by
  unfold analyze_data_shape
  simp only [classifyColumns_eq, List.length_cons]
  congr 1
  · rw [Bool.eq_iff_iff]
    simp [List.isEmpty_iff]
  · rw [Bool.eq_iff_iff]
    simp [List.any_eq_true]

/-! ## Safety gate claims -/

/--
C1: for every denylist keyword and every SQL string, the validator rejects
(safe = false, with a reason) whenever the keyword occurs as a standalone
word-boundary token in any letter case; and it accepts a string in which
denylist keywords occur only as proper substrings of longer identifiers
(given that the comment and multi-statement checks also pass, which the
example inputs do).
-/
theorem C1_keyword_denylist :
    (∀ kw ∈ SQL_FORBIDDEN_KEYWORDS, ∀ s : Str,
        hasWordBoundaryToken kw (pyUpper s) = true →
        (validate_sql_safety s).1 = false ∧ ((validate_sql_safety s).2).isSome = true)
    ∧ (∀ s : Str,
        (∀ kw ∈ SQL_FORBIDDEN_KEYWORDS, hasWordBoundaryToken kw (pyUpper s) = false) →
        containsSub (lit "--") s = false → containsSub (lit "/*") s = false →
        (rstripSemi (rstripWS s)).contains ';' = false →
        validate_sql_safety s = (true, none)) := by
  constructor
  · intro kw hkw s h
    unfold validate_sql_safety
    rcases hF : SQL_FORBIDDEN_KEYWORDS.find?
        (fun k => hasWordBoundaryToken k (pyUpper s)) with _ | k
    · exfalso
      have := List.find?_eq_none.mp hF kw hkw
      simp [h] at this
    · simp [hF]
  · intro s h1 h2 h3 h4
    exact (validate_ok_iff s).mpr ⟨h1, h2, h3, h4⟩

/-- Witness for C1: a lone lowercase `delete` token is rejected, while
`DELETED_AT` and `undelete_flag` (keyword only as proper substring) pass. -/
theorem C1_witness :
    ((validate_sql_safety (lit "delete from t")).1 = false ∧
      ((validate_sql_safety (lit "delete from t")).2).isSome = true) ∧
    validate_sql_safety (lit "SELECT DELETED_AT FROM T WHERE undelete_flag = 1")
      = (true, none) :=
  ⟨C1_keyword_denylist.1 (lit "DELETE") (by decide) (lit "delete from t") (by decide),
   C1_keyword_denylist.2 _ (by decide) (by decide) (by decide) (by decide)⟩

/--
C4 counterexample: `"SELECT 1;;"` has semicolons that are not a single
trailing terminator, so the claim's iff demands rejection, but the validator
accepts it: `rstrip(";")` strips every trailing semicolon, not just one.
-/
theorem C4_counterexample :
    validate_sql_safety (lit "SELECT 1;;") = (true, none) ∧
    semicolonSingleTrailingOnly (lit "SELECT 1;;") = false := by decide

/--
C4 amended: the validator rejects with the multiple-statement reason iff the
keyword and comment checks pass and a semicolon remains after stripping
trailing whitespace and then all trailing semicolons — i.e. a run of several
trailing semicolons (optionally followed by whitespace) is tolerated.
-/
theorem C4_multiple_statement_rule (s : Str) :
    validate_sql_safety s = (false, some .multipleStatements) ↔
      (∀ kw ∈ SQL_FORBIDDEN_KEYWORDS, hasWordBoundaryToken kw (pyUpper s) = false) ∧
      containsSub (lit "--") s = false ∧ containsSub (lit "/*") s = false ∧
      (rstripSemi (rstripWS s)).contains ';' = true := by
  unfold validate_sql_safety
  rcases hF : SQL_FORBIDDEN_KEYWORDS.find?
      (fun kw => hasWordBoundaryToken kw (pyUpper s)) with _ | kw
  · have hall : ∀ kw ∈ SQL_FORBIDDEN_KEYWORDS,
        hasWordBoundaryToken kw (pyUpper s) = false := by
      intro kw hkw
      have := List.find?_eq_none.mp hF kw hkw
      simpa using this
    simp only [hF, hall, true_and]
    by_cases h1 : containsSub (lit "--") s = true
    · simp [h1]
    · by_cases h2 : containsSub (lit "/*") s = true
      · simp [h1, h2]
      · simp only [Bool.not_eq_true] at h1 h2
        by_cases h3 : (rstripSemi (rstripWS s)).contains ';' = true
        · simp [h1, h2, h3]
          exact fun _ => hall
        · simp only [Bool.not_eq_true] at h3
          simp [h1, h2, h3]
          exact fun _ => hall
  · simp only [hF]
    constructor
    · intro h
      cases h
    · rintro ⟨hall, -⟩
      have h1 := List.find?_some hF
      have h2 := List.mem_of_find?_eq_some hF
      rw [hall kw h2] at h1
      cases h1

/--
C3 counterexample: the injection step does not preserve a SQL string with an
existing LIMIT unchanged — it strips surrounding whitespace and trailing
semicolons first: `"SELECT 1 LIMIT 5;"` comes back without its semicolon.
-/
theorem C3_counterexample :
    inject_limit_clause (lit "SELECT 1 LIMIT 5;") none = lit "SELECT 1 LIMIT 5" ∧
    lit "SELECT 1 LIMIT 5" ≠ lit "SELECT 1 LIMIT 5;" := by decide

/--
C3 amended: limit injection first strips whitespace and trailing semicolons;
if the stripped SQL does not contain `LIMIT` as a case-insensitive substring
the result is the stripped SQL with ` LIMIT <rowLimit>` appended, otherwise
the result is the stripped SQL itself (not the original string).
-/
theorem C3_limit_injection (sql : Str) (limit : Option Nat) :
    (containsSub (lit "LIMIT") (pyUpper (rstripSemi (stripWS sql))) = false →
      inject_limit_clause sql limit =
        rstripSemi (stripWS sql) ++ lit " LIMIT "
          ++ (Nat.repr (limit.getD settings.max_rows)).toList)
    ∧ (containsSub (lit "LIMIT") (pyUpper (rstripSemi (stripWS sql))) = true →
      inject_limit_clause sql limit = rstripSemi (stripWS sql)) := by
  unfold inject_limit_clause
  constructor
  · intro h
    simp [h]
  · intro h
    simp [h]

/-- Witness for C3 at both branches. -/
theorem C3_witness :
    inject_limit_clause (lit "SELECT a FROM t2") none = lit "SELECT a FROM t2 LIMIT 10000" ∧
    inject_limit_clause (lit "SELECT a FROM t2 LIMIT 5;") none
      = lit "SELECT a FROM t2 LIMIT 5" :=
  ⟨((C3_limit_injection (lit "SELECT a FROM t2") none).1 (by decide)).trans (by decide),
   ((C3_limit_injection (lit "SELECT a FROM t2 LIMIT 5;") none).2 (by decide)).trans (by decide)⟩

/--
C10: limit injection preserves safety — any SQL string accepted by the
validator is still accepted after the limit-injection step (the pipeline's
default row limit): normalization introduces no denylisted keyword, comment
marker or extra statement.
-/
theorem C10_injection_preserves_safety (s : Str)
    (h : validate_sql_safety s = (true, none)) :
    validate_sql_safety (inject_limit_clause s none) = (true, none) :=
  inject_preserves_safety s h

/-- Witness for C10 at a concrete accepted query. -/
theorem C10_witness :
    validate_sql_safety (lit "SELECT amount FROM sales;") = (true, none) ∧
    validate_sql_safety (inject_limit_clause (lit "SELECT amount FROM sales;") none)
      = (true, none) :=
  ⟨by decide, C10_injection_preserves_safety _ (by decide)⟩

/-! ## Plan-to-SQL compilation claims -/

/--
C2 counterexample: a plan whose metric aggregation `FROBNICATE` is outside
the enum compiles without any error — the unknown value is propagated
verbatim into the SQL text (neither a `PlanError` nor a default to `SUM`);
no aggregation-enum validation exists in the code.
-/
theorem C2_counterexample :
    generate_sql c2BadPlan =
      .ok (lit "SELECT FROBNICATE(amount) AS amount_frobnicate\nFROM sales\nORDER BY amount_frobnicate DESC\nLIMIT 10000") := by
  rfl

/--
C2 amended: SQL generation raises no error for any plan whose `table` field
is present, whatever its aggregation values; the only failure is the
`KeyError` for a missing `table`.
-/
theorem C2_compile_never_raises (plan : AnalysisPlan) :
    (∀ t, plan.table = some t → ∃ sql, generate_sql plan = .ok sql) ∧
    (plan.table = none → generate_sql plan = .error "KeyError: table") := by
  constructor
  · intro t ht
    unfold generate_sql
    simp only [ht]
    by_cases hc :
        (!plan.metrics.isEmpty && plan.metrics.any fun m => aggTruthy m.aggregation) = true
    · rw [if_pos hc]
      exact ⟨_, rfl⟩
    · rw [if_neg hc]
      exact ⟨_, rfl⟩
  · intro ht
    unfold generate_sql
    simp only [ht]

/-- Witness for C2's amended statement at both branches. -/
theorem C2_witness :
    (∃ sql, generate_sql c2OkPlan = .ok sql) ∧
    generate_sql { table := none } = .error "KeyError: table" :=
  ⟨(C2_compile_never_raises c2OkPlan).1 (lit "t") rfl,
   (C2_compile_never_raises { table := none }).2 rfl⟩

/--
C8: each metric with a present aggregation `a` is emitted in the projection
list (`build_select_query` emits `dimensions ++ metrics.map
(metricSelectItem table use_pfx)`) exactly as the claim's formula describes.
-/
theorem C8_metric_projection (t : Str) (joins : List Join) (m : Metric) (a : Str)
    (ha : m.aggregation = some a) :
    metricSelectItem t (!joins.isEmpty) m = specMetricProjection t joins m a := by
  unfold metricSelectItem specMetricProjection
  rw [ha]
  simp only [Option.getD_some]
  have hcond : ((!joins.isEmpty && !m.column.contains '.') = true) ↔
      (1 ≤ joins.length ∧ m.column.contains '.' = false) := by
    cases joins <;> simp [Bool.and_eq_true, Bool.not_eq_true']
  rw [if_congr hcond rfl rfl]

/-- Witness for C8 at a concrete joined metric. -/
theorem C8_witness :
    metricSelectItem (lit "sales")
        (!([{ table := lit "regions", on_column := lit "id",
              from_column := lit "region_id" }] : List Join).isEmpty)
        { column := lit "amount", aggregation := some (lit "SUM") } =
      specMetricProjection (lit "sales")
        [{ table := lit "regions", on_column := lit "id", from_column := lit "region_id" }]
        { column := lit "amount", aggregation := some (lit "SUM") } (lit "SUM") :=
  C8_metric_projection (lit "sales") _ _ (lit "SUM") rfl

/--
C9: when no metric carries a truthy (non-empty, present) aggregation, SQL
generation takes the simple-select path — dimensions (or `*`), filters and
limit — and the result is independent of the plan's joins: a non-empty
`joins` sequence is silently dropped.
-/
theorem C9_simple_select_drops_joins (plan : AnalysisPlan) (t : Str)
    (ht : plan.table = some t)
    (hagg : ∀ m ∈ plan.metrics, aggTruthy m.aggregation = false) :
    generate_sql plan =
      .ok (build_simple_select t
        (if !plan.dimensions.isEmpty then some plan.dimensions else none)
        (some plan.filters) settings.max_rows) ∧
    ∀ js : List Join, generate_sql { plan with joins := js } = generate_sql plan := by
  have hany : (plan.metrics.any fun m => aggTruthy m.aggregation) = false := by
    rw [List.any_eq_false]
    intro m hm
    simp [hagg m hm]
  constructor
  · unfold generate_sql
    simp only [ht, hany, Bool.and_false, Bool.false_eq_true, if_false]
  · intro js
    unfold generate_sql
    simp only [ht, hany, Bool.and_false, Bool.false_eq_true, if_false]

/-- Witness for C9: the joined plan compiles to the join-free simple select. -/
theorem C9_witness :
    generate_sql c9Plan =
      .ok (build_simple_select (lit "sales")
        (if !c9Plan.dimensions.isEmpty then some c9Plan.dimensions else none)
        (some c9Plan.filters) settings.max_rows) :=
  (C9_simple_select_drops_joins c9Plan (lit "sales") rfl (by decide)).1

/-! ## Cache idempotence -/

/--
C7: executing the same SQL string twice within one TTL window issues exactly
one real database execution: the first call (a cache miss) executes and
stores the result under the key derived from the hash of the SQL text, the
second call hits the cache, skips execution (`false` flag) and returns the
cached result with the cache state unchanged.
-/
theorem C7_cache_idempotence (db : Str → QueryResult) (hashFn : Str → Str)
    (t1 t2 : Nat) (sql : Str) (st : CacheState)
    (hmiss : get_cached t1 (sqlCacheKey hashFn sql) st = none)
    (hsafe : (validate_sql_safety sql).1 = true)
    (hwin : t2 < t1 + settings.cache_ttl_seconds) :
    ∃ r st1,
      execute_sql db hashFn t1 sql st = .ok (r, st1, true) ∧
      execute_sql db hashFn t2 sql st1 = .ok (r, st1, false) := by
  have httl : (settings.cache_ttl_seconds != 0) = true := by decide
  refine ⟨db (inject_limit_clause sql none),
    set_cached t1 (sqlCacheKey hashFn sql) (db (inject_limit_clause sql none))
      settings.cache_ttl_seconds st, ?_, ?_⟩
  · simp only [execute_sql, hmiss, execute_query_safe, hsafe, if_true]
  · have hget : get_cached t2 (sqlCacheKey hashFn sql)
        (set_cached t1 (sqlCacheKey hashFn sql) (db (inject_limit_clause sql none))
          settings.cache_ttl_seconds st)
        = some (db (inject_limit_clause sql none)) := by
      unfold get_cached set_cached
      simp only [httl, if_true]
      rw [List.find?_cons_of_pos _ (by simp)]
      simp only [if_pos hwin]
    simp only [execute_sql, hget]

/-- Witness for C7 at a concrete query, an empty cache and times 0 and 1. -/
theorem C7_witness :
    ∃ r st1,
      execute_sql (fun _ => ⟨[], [], 0⟩) (fun _ => lit "h") 0 (lit "SELECT 1") []
        = .ok (r, st1, true) ∧
      execute_sql (fun _ => ⟨[], [], 0⟩) (fun _ => lit "h") 1 (lit "SELECT 1") st1
        = .ok (r, st1, false) :=
  C7_cache_idempotence (fun _ => ⟨[], [], 0⟩) (fun _ => lit "h") 0 1 (lit "SELECT 1") []
    rfl (by decide) (by decide)

/-- Witness for C4 at a stacked-statement input. -/
theorem C4_witness :
    validate_sql_safety (lit "SELECT 1; SELECT 2") = (false, some .multipleStatements) :=
  (C4_multiple_statement_rule (lit "SELECT 1; SELECT 2")).mpr (by decide)
